import Mathlib

/-!
Verification of the persistence and query layer of a study-progress tracking
dashboard (repository layer over an embedded SQL store, plus the input
validation layer).

The embedding models each database table as a list of typed row records and
each repository method as a pure function over those lists, translating the
SQL statements the Python repositories execute.  Floating point grades and
credit sums are modelled as rationals, SQL NULL as `Option`, dates as a
calendar-date structure (the store keeps dates as ISO-8601 text, which is in
bijection with valid calendar dates).  SQLite `julianday` on date-only text
yields values whose differences equal differences of proleptic Gregorian day
numbers, so `delta_days` is modelled through a day-number function that
matches `date.toordinal` of the host language.
-/

/-! ## Calendar dates -/

/-- A calendar date in the proleptic Gregorian calendar (year 1..9999 when
valid, as enforced by the host's date type). -/
structure Date where
  year : Nat
  month : Nat
  day : Nat
deriving DecidableEq, Repr

/-- Gregorian leap-year rule. -/
def isLeapYear (y : Nat) : Bool :=
  (y % 4 == 0 && y % 100 != 0) || y % 400 == 0

/-- Days in a month of a given year. -/
def daysInMonth (y m : Nat) : Nat :=
  if m == 2 then (if isLeapYear y then 29 else 28)
  else if m == 4 || m == 6 || m == 9 || m == 11 then 30
  else 31

/-- Days in year `y` strictly before month `m`. -/
def daysBeforeMonth (y m : Nat) : Nat :=
  ((List.range (m - 1)).map (fun i => daysInMonth y (i + 1))).sum

/-- Proleptic Gregorian day number of a date (1 for 0001-01-01), the same
numbering as the host date library's `toordinal`; differences of SQLite
`julianday` values of ISO date text equal differences of these numbers. -/
def toOrdinal (d : Date) : Nat :=
  365 * (d.year - 1) + (d.year - 1) / 4 + (d.year - 1) / 400 - (d.year - 1) / 100
    + daysBeforeMonth d.year d.month + d.day

/-- Validity check the host date constructor performs (it rejects year 0,
month or day out of range); parsing fails with a `ValueError` on an invalid
combination, falling through to the next format. -/
def mkValidDate (y m d : Nat) : Option Date :=
  if 1 ≤ y ∧ y ≤ 9999 ∧ 1 ≤ m ∧ m ≤ 12 ∧ 1 ≤ d ∧ d ≤ daysInMonth y m then
    some ⟨y, m, d⟩
  else none

/-! ## Validation layer: `parse_date` (validation.py)

`parse_date` strips the input, maps empty input to `None`, then tries the
`strptime` formats `%Y-%m-%d`, `%d.%m.%y`, `%d.%m.%Y` in order, raising
`ValidationError` when none matches.  `strptime` compiles each format to a
regex (`%Y` four digits, `%y` two digits, `%d` matching `3[01]|[12]\d|0[1-9]|[1-9]`,
`%m` matching `1[0-2]|0[1-9]|[1-9]`), requires the whole string to be
consumed, resolves `%y` years 0-68 to 2000-2068 and 69-99 to 1969-1999, and
validates the resulting calendar date.  Because every digit group here is
followed by a non-digit literal or the end of input, the regex backtracking
is equivalent to the greedy two-digit-then-one-digit rule used below. -/

/-- Whitespace characters removed by the host's string strip. -/
def isPySpace (c : Char) : Bool :=
  c == ' ' || c == '\t' || c == '\n' || c == '\r' || c == '\x0b' || c == '\x0c'

/-- `text.strip()` on the character list. -/
def stripChars (cs : List Char) : List Char :=
  ((cs.dropWhile isPySpace).reverse.dropWhile isPySpace).reverse

/-- Numeric value of a digit character, if it is one. -/
def digitVal (c : Char) : Option Nat :=
  if c.isDigit then some (c.toNat - 48) else none

/-- The `%d` / `%m` regex groups: a two-digit value in `1..hi` (leading zero
allowed), else a single nonzero digit. -/
def takeDayMonth (hi : Nat) (cs : List Char) : Option (Nat × List Char) :=
  match cs with
  | c1 :: c2 :: rest =>
    match digitVal c1, digitVal c2 with
    | some a, some b =>
      let v := a * 10 + b
      if 1 ≤ v ∧ v ≤ hi then some (v, rest)
      else if 1 ≤ a then some (a, c2 :: rest)
      else none
    | some a, none => if 1 ≤ a then some (a, c2 :: rest) else none
    | none, _ => none
  | [c1] =>
    match digitVal c1 with
    | some a => if 1 ≤ a then some (a, []) else none
    | none => none
  | [] => none

/-- The `%y` regex group: exactly two digits. -/
def takeTwoDigits (cs : List Char) : Option (Nat × List Char) :=
  match cs with
  | c1 :: c2 :: rest =>
    match digitVal c1, digitVal c2 with
    | some a, some b => some (a * 10 + b, rest)
    | _, _ => none
  | _ => none

/-- The `%Y` regex group: exactly four digits. -/
def takeFourDigits (cs : List Char) : Option (Nat × List Char) :=
  match cs with
  | c1 :: c2 :: c3 :: c4 :: rest =>
    match digitVal c1, digitVal c2, digitVal c3, digitVal c4 with
    | some a, some b, some c, some d => some (((a * 10 + b) * 10 + c) * 10 + d, rest)
    | _, _, _, _ => none
  | _ => none

/-- A literal separator character of the format string. -/
def expectChar (ch : Char) (cs : List Char) : Option (List Char) :=
  match cs with
  | c :: rest => if c == ch then some rest else none
  | [] => none

/-- `strptime(t, "%Y-%m-%d")` returning the parsed date. -/
def tryIso (cs : List Char) : Option Date :=
  match takeFourDigits cs with
  | none => none
  | some (y, cs1) =>
    match expectChar '-' cs1 with
    | none => none
    | some cs2 =>
      match takeDayMonth 12 cs2 with
      | none => none
      | some (m, cs3) =>
        match expectChar '-' cs3 with
        | none => none
        | some cs4 =>
          match takeDayMonth 31 cs4 with
          | none => none
          | some (d, cs5) => if cs5.isEmpty then mkValidDate y m d else none

/-- `strptime(t, "%d.%m.%y")`, including the host's century rule for
two-digit years (0-68 → 2000-2068, 69-99 → 1969-1999). -/
def tryDmy2 (cs : List Char) : Option Date :=
  match takeDayMonth 31 cs with
  | none => none
  | some (d, cs1) =>
    match expectChar '.' cs1 with
    | none => none
    | some cs2 =>
      match takeDayMonth 12 cs2 with
      | none => none
      | some (m, cs3) =>
        match expectChar '.' cs3 with
        | none => none
        | some cs4 =>
          match takeTwoDigits cs4 with
          | none => none
          | some (yy, cs5) =>
            if cs5.isEmpty then
              mkValidDate (if yy ≤ 68 then 2000 + yy else 1900 + yy) m d
            else none

/-- `strptime(t, "%d.%m.%Y")`. -/
def tryDmy4 (cs : List Char) : Option Date :=
  match takeDayMonth 31 cs with
  | none => none
  | some (d, cs1) =>
    match expectChar '.' cs1 with
    | none => none
    | some cs2 =>
      match takeDayMonth 12 cs2 with
      | none => none
      | some (m, cs3) =>
        match expectChar '.' cs3 with
        | none => none
        | some cs4 =>
          match takeFourDigits cs4 with
          | none => none
          | some (y, cs5) => if cs5.isEmpty then mkValidDate y m d else none

/-- Message of the `ValidationError` raised when no format matches. -/
def dateErrorMessage : String := "Datum muss YYYY-MM-DD oder DD.MM.YY(YY) sein"

/-- `parse_date` from the validation layer: strip, empty → `none`, then the
three formats in order, first match wins, else `ValidationError`. -/
def parse_date (text : String) : Except String (Option Date) :=
  if (stripChars text.data).isEmpty then Except.ok none
  else
    match tryIso (stripChars text.data) with
    | some d => Except.ok (some d)
    | none =>
      match tryDmy2 (stripChars text.data) with
      | some d => Except.ok (some d)
      | none =>
        match tryDmy4 (stripChars text.data) with
        | some d => Except.ok (some d)
        | none => Except.error dateErrorMessage

instance exceptDecEq {ε α : Type} [DecidableEq ε] [DecidableEq α] :
    DecidableEq (Except ε α) := fun x y =>
  match x, y with
  | .ok a, .ok b =>
    if h : a = b then isTrue (by rw [h]) else isFalse (by intro hc; cases hc; exact h rfl)
  | .error a, .error b =>
    if h : a = b then isTrue (by rw [h]) else isFalse (by intro hc; cases hc; exact h rfl)
  | .ok _, .error _ => isFalse (by intro hc; cases hc)
  | .error _, .ok _ => isFalse (by intro hc; cases hc)

/-! ## Domain records and table rows (models.py / schema §6)

Each table is a list of typed rows; surrogate keys are naturals.  Grades and
credit values are rationals (SQL REAL/INTEGER), NULL is `Option`.  Stored
dates are calendar dates (the store keeps them as ISO text via `_iso`, a
bijection on valid dates). -/

structure StudentRow where
  student_id : Nat
  vorname : String
  nachname : String
  matrikelnummer : String
  geburtsdatum : Option Date
  adresse : Option String
deriving DecidableEq, Repr

/-- Domain record handed to `StudentRepository.upsert` (no surrogate id is
used by the statement). -/
structure Student where
  vorname : String
  nachname : String
  matrikelnummer : String
  geburtsdatum : Option Date
  adresse : Option String
deriving DecidableEq, Repr

structure StudiengangRow where
  studiengang_id : Nat
  student_id : Nat
  name : String
  start_datum : Date
  soll_studiensemester : Option Int
  soll_durchschnittsnote : Rat
deriving DecidableEq, Repr

/-- Domain record built by `get_latest_for_student`'s row mapping. -/
structure Studiengang where
  name : String
  start_datum : Date
  soll_studiensemester : Option Int
  soll_durchschnittsnote : Rat
deriving DecidableEq, Repr

structure ModulRow where
  modul_id : Nat
  titel : String
  ects : Int
  plan_semester_nr : Int
  default_soll_bestanden_am : Option Date
deriving DecidableEq, Repr

structure ModulBelegungRow where
  belegung_id : Nat
  studiengang_id : Nat
  modul_id : Nat
  plan_semester_nr : Int
  ist_semester_nr : Option Int
  soll_bestanden_am : Option Date
  ist_bestanden_am : Option Date
  soll_note : Option Rat
  ist_note : Option Rat
  anzahl_versuche : Int
deriving DecidableEq, Repr

/-- Domain record handed to `ModulBelegungRepository.update`; `belegung_id`
is optional there and checked as a precondition. -/
structure ModulBelegung where
  belegung_id : Option Nat
  studiengang_id : Nat
  modul_id : Nat
  plan_semester_nr : Int
  ist_semester_nr : Option Int
  soll_bestanden_am : Option Date
  ist_bestanden_am : Option Date
  soll_note : Option Rat
  ist_note : Option Rat
  anzahl_versuche : Int
deriving DecidableEq, Repr

/-! ## StudentRepository.upsert (repositories.py lines 58-108)

`INSERT ... ON CONFLICT(matrikelnummer) DO UPDATE SET vorname, nachname,
geburtsdatum, adresse` followed by: if `cursor.lastrowid` is truthy return
it, else `SELECT student_id WHERE matrikelnummer=?`, raising `RuntimeError`
when that finds no row.  After the UPDATE branch the adapter's `lastrowid`
is not a fresh row id (0/None), modelled as 0; after a real INSERT it is the
new row's id (`nextId`, the table's next free rowid, positive in SQLite). -/

namespace StudentRepository

def upsert (rows : List StudentRow) (nextId : Nat) (s : Student) :
    List StudentRow × Except String Nat :=
  let conflict := rows.any (fun r => r.matrikelnummer == s.matrikelnummer)
  let rows' :=
    if conflict then
      rows.map (fun r =>
        if r.matrikelnummer == s.matrikelnummer then
          { r with vorname := s.vorname, nachname := s.nachname,
                   geburtsdatum := s.geburtsdatum, adresse := s.adresse }
        else r)
    else
      rows ++ [⟨nextId, s.vorname, s.nachname, s.matrikelnummer,
               s.geburtsdatum, s.adresse⟩]
  let lastrowid : Nat := if conflict then 0 else nextId
  let ret : Except String Nat :=
    if lastrowid ≠ 0 then Except.ok lastrowid
    else
      match rows'.find? (fun r => r.matrikelnummer == s.matrikelnummer) with
      | some r => Except.ok r.student_id
      | none =>
        Except.error "Student upsert failed: student not found after insert/update."
  (rows', ret)

end StudentRepository

/-! ## StudiengangRepository.get_latest_for_student (lines 171-205)

`SELECT * FROM studiengang WHERE student_id=? ORDER BY studiengang_id DESC
LIMIT 1`, mapped into a `Studiengang` record.  The single retained row is the
one with the maximal `studiengang_id` among the filtered rows. -/

namespace StudiengangRepository

/-- Row retained by `ORDER BY studiengang_id DESC LIMIT 1`. -/
def maxRow : List StudiengangRow → Option StudiengangRow
  | [] => none
  | r :: rs =>
    match maxRow rs with
    | none => some r
    | some b => some (if b.studiengang_id ≤ r.studiengang_id then r else b)

def toStudiengang (r : StudiengangRow) : Studiengang :=
  ⟨r.name, r.start_datum, r.soll_studiensemester, r.soll_durchschnittsnote⟩

def get_latest_for_student (sgs : List StudiengangRow) (student_id : Nat) :
    Option (Nat × Studiengang) :=
  match maxRow (sgs.filter (fun r => r.student_id == student_id)) with
  | none => none
  | some r => some (r.studiengang_id, toStudiengang r)

end StudiengangRepository

/-! ## ModulBelegungRepository (lines 382-736) -/

namespace ModulBelegungRepository

/-- `UPDATE modul_belegung SET <all non-key fields> WHERE studiengang_id=?
AND belegung_id=?`, preceded by the `belegung_id is None` precondition
check (`ValueError`). -/
def update (mbs : List ModulBelegungRow) (b : ModulBelegung) :
    Except String (List ModulBelegungRow) :=
  match b.belegung_id with
  | none => Except.error "belegung_id required for update"
  | some bid =>
    Except.ok (mbs.map (fun r =>
      if r.studiengang_id == b.studiengang_id && r.belegung_id == bid then
        { r with modul_id := b.modul_id,
                 plan_semester_nr := b.plan_semester_nr,
                 ist_semester_nr := b.ist_semester_nr,
                 soll_bestanden_am := b.soll_bestanden_am,
                 ist_bestanden_am := b.ist_bestanden_am,
                 soll_note := b.soll_note,
                 ist_note := b.ist_note,
                 anzahl_versuche := b.anzahl_versuche }
      else r))

/-- `DELETE FROM modul_belegung WHERE studiengang_id=? AND belegung_id=?`. -/
def delete (mbs : List ModulBelegungRow) (sgid bid : Nat) :
    List ModulBelegungRow :=
  mbs.filter (fun r => !(r.studiengang_id == sgid && r.belegung_id == bid))

/-- Credit weight of the catalog module with a given id (the join partner);
0 when absent (under foreign-key integrity every enrollment has one). -/
def ectsOf (moduls : List ModulRow) (mid : Nat) : Int :=
  match moduls.find? (fun m => m.modul_id == mid) with
  | some m => m.ects
  | none => 0

/-- `SELECT COALESCE(SUM(m.ects),0) FROM modul_belegung mb JOIN modul m ON
m.modul_id = mb.modul_id WHERE mb.studiengang_id=? AND mb.ist_bestanden_am
IS NOT NULL`. -/
def sum_ects_completed (mbs : List ModulBelegungRow) (moduls : List ModulRow)
    (sgid : Nat) : Int :=
  ((mbs.filter (fun mb => mb.studiengang_id == sgid && mb.ist_bestanden_am.isSome)).flatMap
    (fun mb => (moduls.filter (fun m => m.modul_id == mb.modul_id)).map
      (fun m => m.ects))).sum

/-- The join rows `(m.ects, mb.ist_note)` feeding the two aggregates of
`avg_grade_weighted`: the program's enrollments with a non-null grade,
joined to the catalog on module id. -/
def avgPairs (mbs : List ModulBelegungRow) (moduls : List ModulRow)
    (sgid : Nat) : List (Rat × Rat) :=
  (mbs.filter (fun mb => mb.studiengang_id == sgid && mb.ist_note.isSome)).flatMap
    (fun mb => (moduls.filter (fun m => m.modul_id == mb.modul_id)).map
      (fun m => ((m.ects : Rat), mb.ist_note.getD 0)))

/-- `SELECT SUM(m.ects * mb.ist_note) AS wsum, SUM(m.ects) AS ects ... WHERE
mb.studiengang_id=? AND mb.ist_note IS NOT NULL`, then `None` when the sums
are NULL (no join rows) or the credit sum is 0, else `wsum / ects`. -/
def avg_grade_weighted (mbs : List ModulBelegungRow) (moduls : List ModulRow)
    (sgid : Nat) : Option Rat :=
  if (avgPairs mbs moduls sgid).isEmpty then none
  else if ((avgPairs mbs moduls sgid).map Prod.fst).sum = 0 then none
  else some (((avgPairs mbs moduls sgid).map (fun p => p.1 * p.2)).sum
              / ((avgPairs mbs moduls sgid).map Prod.fst).sum)

/-- Row shape produced by `plot_latest_per_module`. -/
structure PlotRow where
  modul_id : Nat
  titel : String
  ects : Int
  soll_note : Option Rat
  ist_note : Option Rat
  soll_bestanden_am : Option Date
  ist_bestanden_am : Option Date
  delta_days : Option Int
deriving DecidableEq, Repr

/-- The `CASE WHEN ... julianday(ist) - julianday(soll) ... END AS
delta_days` column: NULL unless both dates are present, else their signed
day-number difference (the julianday difference of date-only ISO text is an
exact integer, so the `CAST` is the identity). -/
def deltaDays (soll ist : Option Date) : Option Int :=
  match soll, ist with
  | some s, some i => some ((toOrdinal i : Int) - (toOrdinal s : Int))
  | _, _ => none

/-- Projection of one joined detail row into the result columns. -/
def mkPlotRow (mb : ModulBelegungRow) (m : ModulRow) : PlotRow :=
  ⟨mb.modul_id, m.titel, m.ects, mb.soll_note, mb.ist_note,
   mb.soll_bestanden_am, mb.ist_bestanden_am,
   deltaDays mb.soll_bestanden_am mb.ist_bestanden_am⟩

/-- `MAX(belegung_id)` of the group of a module inside the CTE `latest`
(the group is nonempty whenever the module id occurs in the filtered
rows). -/
def groupMaxId (rows : List ModulBelegungRow) (mid : Nat) : Nat :=
  ((rows.filter (fun r => r.modul_id == mid)).map
    (fun r => r.belegung_id)).foldl Nat.max 0

/-- The CTE `latest`: `SELECT MAX(belegung_id) AS last_id, modul_id FROM
modul_belegung WHERE studiengang_id=? GROUP BY modul_id` — one
`(last_id, modul_id)` pair per distinct module id among the program's
enrollment rows (the group order is unspecified in SQL; the outer query
re-sorts). -/
def latestCTE (mbs : List ModulBelegungRow) (sgid : Nat) : List (Nat × Nat) :=
  (((mbs.filter (fun r => r.studiengang_id == sgid)).map (fun r => r.modul_id)).dedup).map
    (fun mid => (groupMaxId (mbs.filter (fun r => r.studiengang_id == sgid)) mid, mid))

/-- The `plot_latest_per_module` query: the CTE `latest` groups the
program's enrollment rows by module and keeps `MAX(belegung_id)`; the outer
query joins each kept id back to the detail table (`ON mb.belegung_id =
l.last_id`) and to the catalog (`ON m.modul_id = mb.modul_id`), and sorts
ascending by module id. -/
def plot_latest_per_module (mbs : List ModulBelegungRow)
    (moduls : List ModulRow) (sgid : Nat) : List PlotRow :=
  List.insertionSort (fun a b => a.modul_id ≤ b.modul_id)
    ((latestCTE mbs sgid).flatMap (fun p =>
      (mbs.filter (fun r => r.belegung_id == p.1)).flatMap (fun mb =>
        (moduls.filter (fun m => m.modul_id == mb.modul_id)).map
          (fun m => mkPlotRow mb m))))

end ModulBelegungRepository

/-! ## Theorems about the validation layer -/

/-- A parsed digit is at most 9. -/
lemma digitVal_le {c : Char} {a : Nat} (h : digitVal c = some a) : a ≤ 9 := by
  unfold digitVal at h
  by_cases hd : c.isDigit = true
  · rw [if_pos hd] at h
    have h2 : c.toNat ≤ 57 := by
      simp [Char.isDigit, Char.le_def, UInt32.le_def, BitVec.le_def] at hd
      simp [Char.toNat, UInt32.toNat]
      omega
    cases h
    omega
  · rw [if_neg hd] at h
    exact Option.noConfusion h

/-- The `%y` group always yields a value below 100. -/
lemma takeTwoDigits_lt {cs : List Char} {v : Nat} {rest : List Char}
    (h : takeTwoDigits cs = some (v, rest)) : v < 100 := by
  cases cs with
  | nil => exact Option.noConfusion h
  | cons c1 t =>
    cases t with
    | nil => exact Option.noConfusion h
    | cons c2 r =>
      simp only [takeTwoDigits] at h
      cases h1 : digitVal c1 with
      | none => rw [h1] at h; exact Option.noConfusion h
      | some a =>
        cases h2 : digitVal c2 with
        | none => rw [h1, h2] at h; exact Option.noConfusion h
        | some b =>
          rw [h1, h2] at h
          have ha := digitVal_le h1
          have hb := digitVal_le h2
          injection h with h
          injection h with hv hrest
          omega

/-- Any date produced by the `%d.%m.%y` format has its year assembled by the
host's century rule from a two-digit value. -/
lemma tryDmy2_year {cs : List Char} {d0 : Date} (h : tryDmy2 cs = some d0) :
    ∃ yy, yy < 100 ∧ d0.year = if yy ≤ 68 then 2000 + yy else 1900 + yy := by
  unfold tryDmy2 at h
  split at h
  · exact Option.noConfusion h
  next dd cs1 h1 =>
    split at h
    · exact Option.noConfusion h
    next cs2 h2 =>
      split at h
      · exact Option.noConfusion h
      next mm cs3 h3 =>
        split at h
        · exact Option.noConfusion h
        next cs4 h4 =>
          split at h
          · exact Option.noConfusion h
          next yy cs5 h5 =>
            by_cases h6 : cs5.isEmpty = true
            · rw [if_pos h6] at h
              refine ⟨yy, takeTwoDigits_lt h5, ?_⟩
              unfold mkValidDate at h
              split at h
              next h68 =>
                split at h
                · injection h with h7
                  rw [← h7, if_pos h68]
                · exact Option.noConfusion h
              next h68 =>
                split at h
                · injection h with h7
                  rw [← h7, if_neg h68]
                · exact Option.noConfusion h
            · rw [if_neg h6] at h
              exact Option.noConfusion h

/-- C8: `parse_date` trims its input and returns `none` for an empty or
whitespace-only string; otherwise it tries ISO `YYYY-MM-DD`, then `DD.MM.YY`,
then `DD.MM.YYYY` in that order, returning the first match, and raises the
validation error exactly when no format matches; `"2024-03-01"`, `"01.03.24"`
and `"01.03.2024"` all denote the same calendar date, and `"not-a-date"`
raises the validation failure. -/
theorem parse_date_spec :
    (∀ s : String, stripChars s.data = [] → parse_date s = Except.ok none)
  ∧ (∀ (s : String) (d : Date), tryIso (stripChars s.data) = some d →
      parse_date s = Except.ok (some d))
  ∧ (∀ (s : String) (d : Date), tryIso (stripChars s.data) = none →
      tryDmy2 (stripChars s.data) = some d → parse_date s = Except.ok (some d))
  ∧ (∀ (s : String) (d : Date), tryIso (stripChars s.data) = none →
      tryDmy2 (stripChars s.data) = none → tryDmy4 (stripChars s.data) = some d →
      parse_date s = Except.ok (some d))
  ∧ (∀ s : String, stripChars s.data ≠ [] → tryIso (stripChars s.data) = none →
      tryDmy2 (stripChars s.data) = none → tryDmy4 (stripChars s.data) = none →
      parse_date s = Except.error dateErrorMessage)
  ∧ (∀ (s : String) (msg : String), parse_date s = Except.error msg →
      msg = dateErrorMessage ∧ stripChars s.data ≠ []
        ∧ tryIso (stripChars s.data) = none ∧ tryDmy2 (stripChars s.data) = none
        ∧ tryDmy4 (stripChars s.data) = none)
  ∧ parse_date "2024-03-01" = Except.ok (some ⟨2024, 3, 1⟩)
  ∧ parse_date "01.03.24" = Except.ok (some ⟨2024, 3, 1⟩)
  ∧ parse_date "01.03.2024" = Except.ok (some ⟨2024, 3, 1⟩)
  ∧ parse_date "" = Except.ok none
  ∧ parse_date "not-a-date" = Except.error dateErrorMessage := by
  refine ⟨?_, ?_, ?_, ?_, ?_, ?_, by decide, by decide, by decide, by decide, by decide⟩
  · intro s h
    unfold parse_date
    rw [if_pos (List.isEmpty_iff.mpr h)]
  · intro s d hIso
    have hne : ¬(stripChars s.data).isEmpty = true := by
      intro he
      rw [List.isEmpty_iff.mp he] at hIso
      exact Option.noConfusion hIso
    unfold parse_date
    rw [if_neg hne, hIso]
  · intro s d hIso hD2
    have hne : ¬(stripChars s.data).isEmpty = true := by
      intro he
      rw [List.isEmpty_iff.mp he] at hD2
      exact Option.noConfusion hD2
    unfold parse_date
    rw [if_neg hne, hIso, hD2]
  · intro s d hIso hD2 hD4
    have hne : ¬(stripChars s.data).isEmpty = true := by
      intro he
      rw [List.isEmpty_iff.mp he] at hD4
      exact Option.noConfusion hD4
    unfold parse_date
    rw [if_neg hne, hIso, hD2, hD4]
  · intro s hne hIso hD2 hD4
    unfold parse_date
    rw [if_neg (fun he => hne (List.isEmpty_iff.mp he)), hIso, hD2, hD4]
  · intro s msg h
    unfold parse_date at h
    by_cases he : (stripChars s.data).isEmpty = true
    · rw [if_pos he] at h
      exact Except.noConfusion h
    · rw [if_neg he] at h
      cases hI : tryIso (stripChars s.data) with
      | some d => rw [hI] at h; exact Except.noConfusion h
      | none =>
        rw [hI] at h
        cases hD2 : tryDmy2 (stripChars s.data) with
        | some d => rw [hD2] at h; exact Except.noConfusion h
        | none =>
          rw [hD2] at h
          cases hD4 : tryDmy4 (stripChars s.data) with
          | some d => rw [hD4] at h; exact Except.noConfusion h
          | none =>
            rw [hD4] at h
            injection h with h7
            exact ⟨h7.symm, fun hnil => he (List.isEmpty_iff.mpr hnil), rfl, rfl, rfl⟩

/-- Witness for C8 at concrete inputs: a whitespace-only string parses to
`none`, and a padded ISO string parses through the first format. -/
theorem parse_date_spec_witness :
    parse_date "   " = Except.ok none
    ∧ parse_date " 2024-03-01 " = Except.ok (some ⟨2024, 3, 1⟩) :=
  ⟨parse_date_spec.1 "   " (by decide),
   parse_date_spec.2.1 " 2024-03-01 " ⟨2024, 3, 1⟩ (by decide)⟩

/-- C9: the `DD.MM.YY` format resolves two-digit years by the host date
library's rule, 00-68 to 2000-2068 and 69-99 to 1969-1999; concretely
`"01.03.24"` parses to 2024-03-01 while `"01.03.70"` parses to 1970-03-01. -/
theorem parse_date_two_digit_year :
    (∀ (cs : List Char) (d : Date), tryDmy2 cs = some d →
        (d.year % 100 ≤ 68 → d.year = 2000 + d.year % 100)
      ∧ (68 < d.year % 100 → d.year = 1900 + d.year % 100)
      ∧ 1969 ≤ d.year ∧ d.year ≤ 2068)
  ∧ parse_date "01.03.24" = Except.ok (some ⟨2024, 3, 1⟩)
  ∧ parse_date "01.03.70" = Except.ok (some ⟨1970, 3, 1⟩) := by
  refine ⟨?_, by decide, by decide⟩
  intro cs d h
  obtain ⟨yy, hlt, hy⟩ := tryDmy2_year h
  by_cases h68 : yy ≤ 68
  · rw [if_pos h68] at hy
    refine ⟨fun _ => by omega, fun hgt => by omega, by omega, by omega⟩
  · rw [if_neg h68] at hy
    refine ⟨fun hle => by omega, fun _ => by omega, by omega, by omega⟩

/-- Witness for C9: the century rule applied at the parsed dates of
`"01.03.24"` (resolved into the 2000s) and `"01.03.70"` (resolved into the
1900s). -/
theorem parse_date_two_digit_year_witness :
    (Date.mk 2024 3 1).year = 2000 + (Date.mk 2024 3 1).year % 100
    ∧ (Date.mk 1970 3 1).year = 1900 + (Date.mk 1970 3 1).year % 100 :=
  ⟨(parse_date_two_digit_year.1 ("01.03.24".data) ⟨2024, 3, 1⟩ (by decide)).1 (by decide),
   (parse_date_two_digit_year.1 ("01.03.70".data) ⟨1970, 3, 1⟩ (by decide)).2.1 (by decide)⟩

/-! ## Theorems about ModulBelegungRepository.update / delete (C10) -/

/-- C10: updating an enrollment whose `belegung_id` is set but whose
(studiengang_id, belegung_id) pair matches no stored row, and deleting with
a composite key matching no stored row, both complete without raising and
leave every stored enrollment row unchanged. -/
theorem update_delete_missing_key_noop (mbs : List ModulBelegungRow)
    (b : ModulBelegung) (sgid bid : Nat) :
    (∀ bid0 : Nat, b.belegung_id = some bid0 →
      (∀ r ∈ mbs, ¬(r.studiengang_id = b.studiengang_id ∧ r.belegung_id = bid0)) →
      ModulBelegungRepository.update mbs b = Except.ok mbs)
  ∧ ((∀ r ∈ mbs, ¬(r.studiengang_id = sgid ∧ r.belegung_id = bid)) →
      ModulBelegungRepository.delete mbs sgid bid = mbs) := by
  constructor
  · intro bid0 hb hno
    have hstep : ModulBelegungRepository.update mbs b
        = Except.ok (mbs.map (fun r =>
            if r.studiengang_id == b.studiengang_id && r.belegung_id == bid0 then
              { r with modul_id := b.modul_id,
                       plan_semester_nr := b.plan_semester_nr,
                       ist_semester_nr := b.ist_semester_nr,
                       soll_bestanden_am := b.soll_bestanden_am,
                       ist_bestanden_am := b.ist_bestanden_am,
                       soll_note := b.soll_note,
                       ist_note := b.ist_note,
                       anzahl_versuche := b.anzahl_versuche }
            else r)) := by
      unfold ModulBelegungRepository.update
      rw [hb]
    have hmap : mbs.map (fun r =>
        if r.studiengang_id == b.studiengang_id && r.belegung_id == bid0 then
          { r with modul_id := b.modul_id,
                   plan_semester_nr := b.plan_semester_nr,
                   ist_semester_nr := b.ist_semester_nr,
                   soll_bestanden_am := b.soll_bestanden_am,
                   ist_bestanden_am := b.ist_bestanden_am,
                   soll_note := b.soll_note,
                   ist_note := b.ist_note,
                   anzahl_versuche := b.anzahl_versuche }
        else r) = mbs.map id := by
      apply List.map_congr_left
      intro r hr
      have : (r.studiengang_id == b.studiengang_id && r.belegung_id == bid0) = false := by
        have := hno r hr
        simp only [Bool.and_eq_false_iff, beq_eq_false_iff_ne, ne_eq]
        by_cases h1 : r.studiengang_id = b.studiengang_id
        · exact Or.inr (fun h2 => this ⟨h1, h2⟩)
        · exact Or.inl h1
      rw [this]
      rfl
    rw [hstep, hmap, List.map_id]
  · intro hno
    unfold ModulBelegungRepository.delete
    apply List.filter_eq_self.mpr
    intro r hr
    have := hno r hr
    simp only [Bool.not_eq_eq_eq_not, Bool.not_true, Bool.and_eq_false_iff,
      beq_eq_false_iff_ne, ne_eq]
    by_cases h1 : r.studiengang_id = sgid
    · exact Or.inr (fun h2 => this ⟨h1, h2⟩)
    · exact Or.inl h1

/-- Demonstration rows for witnesses: one enrollment of program 7 in
module 1. -/
def demoMb : ModulBelegungRow :=
  ⟨1, 7, 1, 1, none, none, none, none, some 2, 1⟩

/-- Witness for C10 at a concrete store: keys (8, 1) and (7, 9) match
nothing, so update and delete leave the single stored row untouched. -/
theorem update_delete_missing_key_noop_witness :
    ModulBelegungRepository.update [demoMb]
      ⟨some 9, 7, 1, 1, none, none, none, none, none, 1⟩ = Except.ok [demoMb]
    ∧ ModulBelegungRepository.delete [demoMb] 8 1 = [demoMb] :=
  ⟨(update_delete_missing_key_noop [demoMb]
      ⟨some 9, 7, 1, 1, none, none, none, none, none, 1⟩ 8 1).1 9 rfl (by decide),
   (update_delete_missing_key_noop [demoMb]
      ⟨some 9, 7, 1, 1, none, none, none, none, none, 1⟩ 8 1).2 (by decide)⟩

/-! ## Theorems about StudentRepository.upsert (C3, C4) -/

/-- When the natural key is unique, the conflict-update map rewrites exactly
the row at the matching position and keeps every other row. -/
lemma map_upsert_eq_set (s : Student) :
    ∀ (l : List StudentRow) (i : Nat) (hi : i < l.length),
      (l.map (fun r => r.matrikelnummer)).Nodup →
      (l.get ⟨i, hi⟩).matrikelnummer = s.matrikelnummer →
      l.map (fun r => if r.matrikelnummer == s.matrikelnummer
          then { r with vorname := s.vorname, nachname := s.nachname,
                        geburtsdatum := s.geburtsdatum, adresse := s.adresse }
          else r)
        = l.set i { (l.get ⟨i, hi⟩) with vorname := s.vorname, nachname := s.nachname,
                                         geburtsdatum := s.geburtsdatum, adresse := s.adresse } := by
  intro l
  induction l with
  | nil => intro i hi; exact absurd hi (by simp)
  | cons a t ih =>
    intro i hi hnd hkey
    rw [List.map_cons, List.nodup_cons] at hnd
    obtain ⟨hna, hndt⟩ := hnd
    cases i with
    | zero =>
      have hkey0 : a.matrikelnummer = s.matrikelnummer := hkey
      simp only [List.map_cons, List.set]
      rw [if_pos (beq_iff_eq.mpr hkey0)]
      have htail : t.map (fun r => if r.matrikelnummer == s.matrikelnummer
          then { r with vorname := s.vorname, nachname := s.nachname,
                        geburtsdatum := s.geburtsdatum, adresse := s.adresse }
          else r) = t := by
        have : ∀ r ∈ t, (if r.matrikelnummer == s.matrikelnummer
            then { r with vorname := s.vorname, nachname := s.nachname,
                          geburtsdatum := s.geburtsdatum, adresse := s.adresse }
            else r) = id r := by
          intro r hr
          rw [if_neg]
          · rfl
          · intro hbe
            apply hna
            rw [hkey0, ← beq_iff_eq.mp hbe]
            exact List.mem_map_of_mem _ hr
        rw [List.map_congr_left this, List.map_id]
      rw [htail]
      rfl
    | succ n =>
      have hn : n < t.length := by
        have := hi
        simp only [List.length_cons] at this
        omega
      have hkeyt : (t.get ⟨n, hn⟩).matrikelnummer = s.matrikelnummer := hkey
      simp only [List.map_cons, List.set]
      rw [if_neg]
      · rw [ih n hn hndt hkeyt]
        rfl
      · intro hbe
        apply hna
        rw [beq_iff_eq.mp hbe, ← hkeyt]
        exact List.mem_map_of_mem _ (t.get_mem n hn)

/-- C3: `upsert` inserts a new row (with the given fields and the fresh
surrogate id) when no stored student carries the matrikelnummer; when one
does, it overwrites exactly that row's vorname, nachname, geburtsdatum and
adresse in place — preserving its student_id and matrikelnummer, since the
update touches no other field — and leaves every other row unchanged. -/
theorem student_upsert_frame (rows : List StudentRow) (nextId : Nat) (s : Student) :
    ((∀ r ∈ rows, r.matrikelnummer ≠ s.matrikelnummer) →
      (StudentRepository.upsert rows nextId s).1
        = rows ++ [⟨nextId, s.vorname, s.nachname, s.matrikelnummer,
                    s.geburtsdatum, s.adresse⟩])
  ∧ (∀ r0 : StudentRow, (rows.map (fun r => r.matrikelnummer)).Nodup →
      r0 ∈ rows → r0.matrikelnummer = s.matrikelnummer →
      ∃ i, ∃ h : i < rows.length, rows.get ⟨i, h⟩ = r0 ∧
        (StudentRepository.upsert rows nextId s).1
          = rows.set i { r0 with vorname := s.vorname, nachname := s.nachname,
                                 geburtsdatum := s.geburtsdatum,
                                 adresse := s.adresse }) := by
  constructor
  · intro hno
    have hconf : (rows.any fun r => r.matrikelnummer == s.matrikelnummer) = false :=
      List.any_eq_false.mpr (fun r hr => by simpa using hno r hr)
    simp only [StudentRepository.upsert, hconf]
    rfl
  · intro r0 hnd hr0 hmat
    have hconf : (rows.any fun r => r.matrikelnummer == s.matrikelnummer) = true :=
      List.any_eq_true.mpr ⟨r0, hr0, beq_iff_eq.mpr hmat⟩
    obtain ⟨⟨i, hi⟩, hget⟩ := List.mem_iff_get.mp hr0
    refine ⟨i, hi, hget, ?_⟩
    have hmap := map_upsert_eq_set s rows i hi hnd (by rw [hget]; exact hmat)
    rw [hget] at hmap
    simp only [StudentRepository.upsert, hconf]
    simpa using hmap

/-- Demonstration student row for the upsert witnesses. -/
def demoStudentRow : StudentRow := ⟨1, "Ada", "Lovelace", "M100", none, none⟩

/-- Witness for C3 at a concrete store: a fresh matrikelnummer is appended
as a new row with the fresh id, and re-saving the stored matrikelnummer
rewrites the stored row in place. -/
theorem student_upsert_frame_witness :
    (StudentRepository.upsert [demoStudentRow] 2
        ⟨"Grace", "Hopper", "M200", none, none⟩).1
      = [demoStudentRow] ++ [⟨2, "Grace", "Hopper", "M200", none, none⟩]
    ∧ ∃ i, ∃ h : i < ([demoStudentRow] : List StudentRow).length,
        ([demoStudentRow] : List StudentRow).get ⟨i, h⟩ = demoStudentRow ∧
        (StudentRepository.upsert [demoStudentRow] 2
            ⟨"Grace", "Hopper", "M100", none, none⟩).1
          = [demoStudentRow].set i { demoStudentRow with
                                     vorname := "Grace", nachname := "Hopper",
                                     geburtsdatum := none, adresse := none } :=
  ⟨(student_upsert_frame [demoStudentRow] 2 ⟨"Grace", "Hopper", "M200", none, none⟩).1
      (by decide),
   (student_upsert_frame [demoStudentRow] 2 ⟨"Grace", "Hopper", "M100", none, none⟩).2
      demoStudentRow (by decide) (by decide) rfl⟩

/-- C4: `upsert` always returns the surrogate id of the row now carrying the
given matrikelnummer (through `lastrowid` after an insert, through the
fallback lookup after the update branch), and it raises the runtime error
exactly when the fallback lookup finds no row — which after an
insert-or-update never happens. -/
theorem student_upsert_returns_id (rows : List StudentRow) (nextId : Nat)
    (s : Student) (hnz : nextId ≠ 0) :
    (∃ r : StudentRow,
      ((StudentRepository.upsert rows nextId s).1.find?
        (fun x => x.matrikelnummer == s.matrikelnummer)) = some r
      ∧ (StudentRepository.upsert rows nextId s).2 = Except.ok r.student_id)
  ∧ ((∃ msg, (StudentRepository.upsert rows nextId s).2 = Except.error msg)
      ↔ ((StudentRepository.upsert rows nextId s).1.find?
          (fun x => x.matrikelnummer == s.matrikelnummer)) = none) := by
  by_cases hconf : (rows.any fun r => r.matrikelnummer == s.matrikelnummer) = true
  · -- UPDATE branch: lastrowid is 0, return comes from the fallback SELECT
    obtain ⟨r0, hr0, hb0⟩ := List.any_eq_true.mp hconf
    have h1 : (StudentRepository.upsert rows nextId s).1
        = rows.map (fun r => if r.matrikelnummer == s.matrikelnummer
            then { r with vorname := s.vorname, nachname := s.nachname,
                          geburtsdatum := s.geburtsdatum, adresse := s.adresse }
            else r) := by
      simp only [StudentRepository.upsert, hconf]
      rfl
    have hmem : ∃ x ∈ (StudentRepository.upsert rows nextId s).1,
        (x.matrikelnummer == s.matrikelnummer) = true := by
      rw [h1]
      refine ⟨_, List.mem_map_of_mem _ hr0, ?_⟩
      rw [if_pos hb0]
      exact hb0
    cases hf : ((StudentRepository.upsert rows nextId s).1.find?
        (fun x => x.matrikelnummer == s.matrikelnummer)) with
    | none =>
      obtain ⟨x, hx, hbx⟩ := hmem
      exact absurd hbx (List.find?_eq_none.mp hf x hx)
    | some r =>
      have hf1 : (rows.map (fun r => if r.matrikelnummer == s.matrikelnummer
          then { r with vorname := s.vorname, nachname := s.nachname,
                        geburtsdatum := s.geburtsdatum, adresse := s.adresse }
          else r)).find? (fun x => x.matrikelnummer == s.matrikelnummer) = some r := by
        rw [← h1]
        exact hf
      have h2 : (StudentRepository.upsert rows nextId s).2 = Except.ok r.student_id := by
        simp only [StudentRepository.upsert, hconf]
        simp only [if_pos, ite_true, ite_false, ne_eq, not_true_eq_false,
          not_false_eq_true]
        rw [hf1]
      refine ⟨⟨r, rfl, h2⟩, ?_⟩
      constructor
      · rintro ⟨msg, hmsg⟩
        rw [h2] at hmsg
        exact Except.noConfusion hmsg
      · intro hn
        exact Option.noConfusion hn
  · -- INSERT branch: a fresh row is appended and lastrowid returned
    have hfalse : (rows.any fun r => r.matrikelnummer == s.matrikelnummer) = false :=
      by rwa [Bool.not_eq_true] at hconf
    have h1 : (StudentRepository.upsert rows nextId s).1
        = rows ++ [⟨nextId, s.vorname, s.nachname, s.matrikelnummer,
                    s.geburtsdatum, s.adresse⟩] := by
      simp only [StudentRepository.upsert, hfalse]
      rfl
    have hfind : (StudentRepository.upsert rows nextId s).1.find?
        (fun x => x.matrikelnummer == s.matrikelnummer)
        = some ⟨nextId, s.vorname, s.nachname, s.matrikelnummer,
                s.geburtsdatum, s.adresse⟩ := by
      rw [h1, List.find?_append]
      have hrows : rows.find? (fun x => x.matrikelnummer == s.matrikelnummer) = none :=
        List.find?_eq_none.mpr (fun x hx => by
          simpa using List.any_eq_false.mp hfalse x hx)
      rw [hrows]
      simp
    have h2 : (StudentRepository.upsert rows nextId s).2 = Except.ok nextId := by
      simp only [StudentRepository.upsert, hfalse]
      simp [hnz]
    refine ⟨⟨⟨nextId, s.vorname, s.nachname, s.matrikelnummer,
              s.geburtsdatum, s.adresse⟩, hfind, h2⟩, ?_⟩
    constructor
    · rintro ⟨msg, hmsg⟩
      rw [h2] at hmsg
      exact Except.noConfusion hmsg
    · intro hn
      rw [hfind] at hn
      exact Option.noConfusion hn

/-- Witness for C4 on a concrete store: both the insert case (fresh key,
id 2 returned) and the update case (existing key, stored id 1 returned by
the fallback lookup) return the id of the row carrying the key. -/
theorem student_upsert_returns_id_witness :
    (∃ r : StudentRow,
      ((StudentRepository.upsert [demoStudentRow] 2
          ⟨"Grace", "Hopper", "M200", none, none⟩).1.find?
        (fun x => x.matrikelnummer == "M200")) = some r
      ∧ (StudentRepository.upsert [demoStudentRow] 2
          ⟨"Grace", "Hopper", "M200", none, none⟩).2 = Except.ok r.student_id)
    ∧ (∃ r : StudentRow,
      ((StudentRepository.upsert [demoStudentRow] 2
          ⟨"Grace", "Hopper", "M100", none, none⟩).1.find?
        (fun x => x.matrikelnummer == "M100")) = some r
      ∧ (StudentRepository.upsert [demoStudentRow] 2
          ⟨"Grace", "Hopper", "M100", none, none⟩).2 = Except.ok r.student_id) :=
  ⟨(student_upsert_returns_id [demoStudentRow] 2
      ⟨"Grace", "Hopper", "M200", none, none⟩ (by decide)).1,
   (student_upsert_returns_id [demoStudentRow] 2
      ⟨"Grace", "Hopper", "M100", none, none⟩ (by decide)).1⟩

/-! ## Theorems about StudiengangRepository.get_latest_for_student (C7) -/

/-- `ORDER BY studiengang_id DESC LIMIT 1` yields no row exactly on an empty
selection. -/
lemma maxRow_eq_none_iff (l : List StudiengangRow) :
    StudiengangRepository.maxRow l = none ↔ l = [] := by
  cases l with
  | nil => simp [StudiengangRepository.maxRow]
  | cons r rs =>
    simp only [StudiengangRepository.maxRow]
    cases StudiengangRepository.maxRow rs with
    | none => simp
    | some b => simp

/-- The retained row belongs to the selection and carries its maximal
surrogate id. -/
lemma maxRow_mem_le {l : List StudiengangRow} {r : StudiengangRow}
    (h : StudiengangRepository.maxRow l = some r) :
    r ∈ l ∧ ∀ x ∈ l, x.studiengang_id ≤ r.studiengang_id := by
  induction l generalizing r with
  | nil => exact Option.noConfusion h
  | cons a t ih =>
    simp only [StudiengangRepository.maxRow] at h
    cases hm : StudiengangRepository.maxRow t with
    | none =>
      rw [hm] at h
      injection h with h
      have ht : t = [] := (maxRow_eq_none_iff t).mp hm
      subst ht
      refine ⟨?_, ?_⟩
      · rw [← h]
        exact List.mem_singleton_self a
      · intro x hx
        rw [← h]
        have hxa : x = a := by simpa using hx
        subst hxa
        exact Nat.le_refl _
    | some b =>
      rw [hm] at h
      injection h with h
      obtain ⟨hbmem, hble⟩ := ih hm
      by_cases hcmp : b.studiengang_id ≤ a.studiengang_id
      · rw [if_pos hcmp] at h
        subst h
        refine ⟨List.mem_cons_self _ _, ?_⟩
        intro x hx
        rcases List.mem_cons.mp hx with hxa | hxt
        · subst hxa; exact Nat.le_refl _
        · exact Nat.le_trans (hble x hxt) hcmp
      · rw [if_neg hcmp] at h
        subst h
        refine ⟨List.mem_cons_of_mem _ hbmem, ?_⟩
        intro x hx
        rcases List.mem_cons.mp hx with hxa | hxt
        · subst hxa; omega
        · exact hble x hxt

/-- C7: `get_latest_for_student` returns `none` exactly when the student
owns no program, and otherwise the (id, record) pair of the owned program
row with the highest surrogate id. -/
theorem get_latest_for_student_spec (sgs : List StudiengangRow) (sid : Nat) :
    (StudiengangRepository.get_latest_for_student sgs sid = none
      ↔ ∀ r ∈ sgs, r.student_id ≠ sid)
  ∧ (∀ (gid : Nat) (sg : Studiengang),
      StudiengangRepository.get_latest_for_student sgs sid = some (gid, sg) →
      ∃ r ∈ sgs, r.student_id = sid ∧ r.studiengang_id = gid
        ∧ sg = StudiengangRepository.toStudiengang r
        ∧ ∀ r' ∈ sgs, r'.student_id = sid → r'.studiengang_id ≤ gid) := by
  constructor
  · unfold StudiengangRepository.get_latest_for_student
    cases hm : StudiengangRepository.maxRow (sgs.filter (fun r => r.student_id == sid)) with
    | none =>
      constructor
      · intro _ r hr hsid
        have hnil := (maxRow_eq_none_iff _).mp hm
        have hmemf : r ∈ sgs.filter (fun x => x.student_id == sid) :=
          List.mem_filter.mpr ⟨hr, beq_iff_eq.mpr hsid⟩
        rw [hnil] at hmemf
        simp at hmemf
      · intro _
        rfl
    | some b =>
      constructor
      · intro hcontra
        exact absurd hcontra (by simp)
      · intro hall
        exfalso
        obtain ⟨hbmem, _⟩ := maxRow_mem_le hm
        obtain ⟨hbsgs, hbsid⟩ := List.mem_filter.mp hbmem
        exact hall b hbsgs (beq_iff_eq.mp hbsid)
  · intro gid sg h
    unfold StudiengangRepository.get_latest_for_student at h
    cases hm : StudiengangRepository.maxRow (sgs.filter (fun r => r.student_id == sid)) with
    | none => rw [hm] at h; exact Option.noConfusion h
    | some b =>
      rw [hm] at h
      injection h with h
      obtain ⟨hbmem, hble⟩ := maxRow_mem_le hm
      obtain ⟨hbsgs, hbsid⟩ := List.mem_filter.mp hbmem
      have hpair : b.studiengang_id = gid ∧ StudiengangRepository.toStudiengang b = sg := by
        constructor
        · exact congrArg Prod.fst h
        · exact congrArg Prod.snd h
      refine ⟨b, hbsgs, beq_iff_eq.mp hbsid, hpair.1, hpair.2.symm, ?_⟩
      intro r' hr' hsid'
      rw [← hpair.1]
      exact hble r' (List.mem_filter.mpr ⟨hr', beq_iff_eq.mpr hsid'⟩)

/-- Demonstration program rows for the C7 witness: student 1 owns programs
3 and 5, student 2 owns none. -/
def demoSg3 : StudiengangRow := ⟨3, 1, "BSc Informatik", ⟨2023, 10, 1⟩, some 6, 2⟩

def demoSg5 : StudiengangRow := ⟨5, 1, "MSc Informatik", ⟨2024, 4, 1⟩, none, 2⟩

/-- Witness for C7: on the concrete store, student 1 gets program 5 (the
higher surrogate id), which dominates both owned rows. -/
theorem get_latest_for_student_spec_witness :
    ∃ r ∈ [demoSg3, demoSg5], r.student_id = 1 ∧ r.studiengang_id = 5
      ∧ StudiengangRepository.toStudiengang demoSg5 = StudiengangRepository.toStudiengang r
      ∧ ∀ r' ∈ [demoSg3, demoSg5], r'.student_id = 1 → r'.studiengang_id ≤ 5 :=
  (get_latest_for_student_spec [demoSg3, demoSg5] 1).2 5
    (StudiengangRepository.toStudiengang demoSg5) (by decide)

/-! ## Key-lookup lemmas shared by the aggregate and plot queries -/

/-- Filtering by a key held by exactly one element (unique key column)
yields that element alone. -/
lemma filter_key_eq {β : Type} (f : β → Nat) :
    ∀ (l : List β) (r : β) (k : Nat), (l.map f).Nodup → r ∈ l → f r = k →
      l.filter (fun x => f x == k) = [r] := by
  intro l
  induction l with
  | nil => intro r k _ hr _; exact absurd hr (List.not_mem_nil r)
  | cons a t ih =>
    intro r k hnd hr hk
    rw [List.map_cons, List.nodup_cons] at hnd
    obtain ⟨hna, hndt⟩ := hnd
    rcases List.mem_cons.mp hr with hra | hrt
    · subst hra
      rw [List.filter_cons, if_pos (beq_iff_eq.mpr hk)]
      have htail : t.filter (fun x => f x == k) = [] := by
        rw [List.filter_eq_nil_iff]
        intro x hx hbx
        apply hna
        rw [hk, ← beq_iff_eq.mp hbx]
        exact List.mem_map_of_mem f hx
      rw [htail]
    · rw [List.filter_cons, if_neg, ih r k hndt hrt hk]
      intro hba
      apply hna
      rw [beq_iff_eq.mp hba, ← hk]
      exact List.mem_map_of_mem f hrt

/-- `find?` by a key held by a stored element of a unique key column
returns that element. -/
lemma find_key_eq {β : Type} (f : β → Nat) :
    ∀ (l : List β) (r : β) (k : Nat), (l.map f).Nodup → r ∈ l → f r = k →
      l.find? (fun x => f x == k) = some r := by
  intro l
  induction l with
  | nil => intro r k _ hr _; exact absurd hr (List.not_mem_nil r)
  | cons a t ih =>
    intro r k hnd hr hk
    rw [List.map_cons, List.nodup_cons] at hnd
    obtain ⟨hna, hndt⟩ := hnd
    rcases List.mem_cons.mp hr with hra | hrt
    · subst hra
      exact List.find?_cons_of_pos _ (beq_iff_eq.mpr hk)
    · rw [List.find?_cons_of_neg, ih r k hndt hrt hk]
      intro hba
      apply hna
      rw [beq_iff_eq.mp hba, ← hk]
      exact List.mem_map_of_mem f hrt

/-- A flat map whose steps each produce a singleton is a map. -/
lemma flatMap_singleton {β γ : Type} (F : β → List γ) (g : β → γ) :
    ∀ l : List β, (∀ x ∈ l, F x = [g x]) → l.flatMap F = l.map g := by
  intro l
  induction l with
  | nil => intro _; rfl
  | cons a t ih =>
    intro h
    rw [List.flatMap_cons, h a (List.mem_cons_self a t), List.map_cons,
        ih (fun x hx => h x (List.mem_cons_of_mem a hx))]
    rfl

/-! ## Theorems about the KPI aggregates (C5, C6) -/

/-- C6: `sum_ects_completed` equals the sum, over exactly the program's
enrollments with a non-null actual-completion date, of the enrolled module's
credit weight (counted once per such enrollment), and is 0 for a program
with no enrollments at all. -/
theorem sum_ects_completed_spec (mbs : List ModulBelegungRow)
    (moduls : List ModulRow) (sgid : Nat)
    (hmk : (moduls.map (fun m => m.modul_id)).Nodup)
    (hfk : ∀ mb ∈ mbs, ∃ m ∈ moduls, m.modul_id = mb.modul_id) :
    ModulBelegungRepository.sum_ects_completed mbs moduls sgid
      = ((mbs.filter (fun mb => mb.studiengang_id == sgid && mb.ist_bestanden_am.isSome)).map
          (fun mb => ModulBelegungRepository.ectsOf moduls mb.modul_id)).sum
  ∧ (mbs.filter (fun mb => mb.studiengang_id == sgid) = [] →
      ModulBelegungRepository.sum_ects_completed mbs moduls sgid = 0) := by
  have key : ∀ mb ∈ mbs,
      (moduls.filter (fun m => m.modul_id == mb.modul_id)).map (fun m => m.ects)
        = [ModulBelegungRepository.ectsOf moduls mb.modul_id] := by
    intro mb hmb
    obtain ⟨m, hmmem, hmid⟩ := hfk mb hmb
    rw [filter_key_eq (fun m => m.modul_id) moduls m mb.modul_id hmk hmmem hmid]
    unfold ModulBelegungRepository.ectsOf
    rw [find_key_eq (fun m => m.modul_id) moduls m mb.modul_id hmk hmmem hmid]
    rfl
  have hmain : ModulBelegungRepository.sum_ects_completed mbs moduls sgid
      = ((mbs.filter (fun mb => mb.studiengang_id == sgid && mb.ist_bestanden_am.isSome)).map
          (fun mb => ModulBelegungRepository.ectsOf moduls mb.modul_id)).sum := by
    unfold ModulBelegungRepository.sum_ects_completed
    rw [flatMap_singleton _ _ _
      (fun mb hmb => key mb (List.mem_of_mem_filter hmb))]
  refine ⟨hmain, ?_⟩
  intro h
  have hsub : mbs.filter (fun mb => mb.studiengang_id == sgid && mb.ist_bestanden_am.isSome)
      = [] := by
    rw [List.eq_nil_iff_forall_not_mem]
    intro x hx
    rw [List.mem_filter, Bool.and_eq_true] at hx
    have hx1 : x ∈ mbs.filter (fun mb => mb.studiengang_id == sgid) :=
      List.mem_filter.mpr ⟨hx.1, hx.2.1⟩
    rw [h] at hx1
    exact List.not_mem_nil x hx1
  rw [hmain, hsub]
  rfl

/-- Demonstration catalog and enrollments for the aggregate witnesses:
modules 1 (5 ECTS) and 2 (10 ECTS); program 7 completed module 1 with grade
2.0 and module 2 with grade 1.0, and has one open enrollment. -/
def demoModul1 : ModulRow := ⟨1, "Mathe", 5, 1, none⟩

def demoModul2 : ModulRow := ⟨2, "Programmierung", 10, 1, none⟩

def demoDone1 : ModulBelegungRow :=
  ⟨1, 7, 1, 1, some 1, none, some ⟨2024, 1, 15⟩, none, some 2, 1⟩

def demoDone2 : ModulBelegungRow :=
  ⟨2, 7, 2, 1, some 1, none, some ⟨2024, 2, 10⟩, none, some 1, 1⟩

def demoOpen : ModulBelegungRow :=
  ⟨3, 7, 1, 2, none, none, none, none, none, 1⟩

/-- Witness for C6: on the concrete store the completed credits are
5 + 10 = 15, the open enrollment contributing nothing. -/
theorem sum_ects_completed_spec_witness :
    ModulBelegungRepository.sum_ects_completed [demoDone1, demoDone2, demoOpen]
        [demoModul1, demoModul2] 7
      = (([demoDone1, demoDone2, demoOpen].filter
          (fun mb => mb.studiengang_id == 7 && mb.ist_bestanden_am.isSome)).map
          (fun mb => ModulBelegungRepository.ectsOf [demoModul1, demoModul2] mb.modul_id)).sum
    ∧ ModulBelegungRepository.sum_ects_completed [demoDone1, demoDone2, demoOpen]
        [demoModul1, demoModul2] 7 = 15 :=
  ⟨(sum_ects_completed_spec [demoDone1, demoDone2, demoOpen] [demoModul1, demoModul2] 7
      (by decide) (by decide)).1,
   by decide⟩

/-- C5: `avg_grade_weighted` equals the credit-weighted mean
Σ(credit×grade)/Σ(credit) over exactly the program's enrollments with a
non-null actual grade (each weighted by its module's credit weight), and is
`none` when no such enrollment exists or those credit weights sum to 0. -/
theorem avg_grade_weighted_spec (mbs : List ModulBelegungRow)
    (moduls : List ModulRow) (sgid : Nat)
    (hmk : (moduls.map (fun m => m.modul_id)).Nodup)
    (hfk : ∀ mb ∈ mbs, ∃ m ∈ moduls, m.modul_id = mb.modul_id) :
    ModulBelegungRepository.avg_grade_weighted mbs moduls sgid
      = if mbs.filter (fun mb => mb.studiengang_id == sgid && mb.ist_note.isSome) = []
          ∨ ((mbs.filter (fun mb => mb.studiengang_id == sgid && mb.ist_note.isSome)).map
              (fun mb => ((ModulBelegungRepository.ectsOf moduls mb.modul_id : Int) : Rat))).sum = 0
        then none
        else some
          (((mbs.filter (fun mb => mb.studiengang_id == sgid && mb.ist_note.isSome)).map
              (fun mb => ((ModulBelegungRepository.ectsOf moduls mb.modul_id : Int) : Rat)
                * mb.ist_note.getD 0)).sum
            / ((mbs.filter (fun mb => mb.studiengang_id == sgid && mb.ist_note.isSome)).map
                (fun mb => ((ModulBelegungRepository.ectsOf moduls mb.modul_id : Int) : Rat))).sum) := by
  have key : ∀ mb ∈ mbs,
      (moduls.filter (fun m => m.modul_id == mb.modul_id)).map
          (fun m => ((m.ects : Rat), mb.ist_note.getD 0))
        = [(((ModulBelegungRepository.ectsOf moduls mb.modul_id : Int) : Rat),
            mb.ist_note.getD 0)] := by
    intro mb hmb
    obtain ⟨m, hmmem, hmid⟩ := hfk mb hmb
    rw [filter_key_eq (fun m => m.modul_id) moduls m mb.modul_id hmk hmmem hmid]
    unfold ModulBelegungRepository.ectsOf
    rw [find_key_eq (fun m => m.modul_id) moduls m mb.modul_id hmk hmmem hmid]
    rfl
  have hpairs : ModulBelegungRepository.avgPairs mbs moduls sgid
      = (mbs.filter (fun mb => mb.studiengang_id == sgid && mb.ist_note.isSome)).map
          (fun mb => (((ModulBelegungRepository.ectsOf moduls mb.modul_id : Int) : Rat),
                      mb.ist_note.getD 0)) := by
    unfold ModulBelegungRepository.avgPairs
    exact flatMap_singleton _ _ _ (fun mb hmb => key mb (List.mem_of_mem_filter hmb))
  have hfst : (ModulBelegungRepository.avgPairs mbs moduls sgid).map Prod.fst
      = (mbs.filter (fun mb => mb.studiengang_id == sgid && mb.ist_note.isSome)).map
          (fun mb => ((ModulBelegungRepository.ectsOf moduls mb.modul_id : Int) : Rat)) := by
    rw [hpairs, List.map_map]
    rfl
  have hmul : (ModulBelegungRepository.avgPairs mbs moduls sgid).map (fun p => p.1 * p.2)
      = (mbs.filter (fun mb => mb.studiengang_id == sgid && mb.ist_note.isSome)).map
          (fun mb => ((ModulBelegungRepository.ectsOf moduls mb.modul_id : Int) : Rat)
            * mb.ist_note.getD 0) := by
    rw [hpairs, List.map_map]
    rfl
  unfold ModulBelegungRepository.avg_grade_weighted
  by_cases hnil : mbs.filter (fun mb => mb.studiengang_id == sgid && mb.ist_note.isSome) = []
  · have hpnil : ModulBelegungRepository.avgPairs mbs moduls sgid = [] := by
      rw [hpairs, hnil]
      rfl
    rw [hpnil, if_pos (Or.inl hnil)]
    rfl
  · have hpne : (ModulBelegungRepository.avgPairs mbs moduls sgid).isEmpty = false := by
      rw [hpairs]
      cases hgr : mbs.filter (fun mb => mb.studiengang_id == sgid && mb.ist_note.isSome) with
      | nil => exact absurd hgr hnil
      | cons a t => rfl
    rw [if_neg (by rw [hpne]; exact Bool.false_ne_true), hfst, hmul]
    by_cases hden : ((mbs.filter (fun mb => mb.studiengang_id == sgid && mb.ist_note.isSome)).map
        (fun mb => ((ModulBelegungRepository.ectsOf moduls mb.modul_id : Int) : Rat))).sum = 0
    · rw [if_pos hden, if_pos (Or.inr hden)]
    · rw [if_neg hden, if_neg (by rintro (h1 | h2); exacts [hnil h1, hden h2])]

/-- Witness for C5: grades 2.0 (5 ECTS) and 1.0 (10 ECTS) give the weighted
mean 20/15 = 4/3, the ungraded enrollment being ignored; a program with only
ungraded enrollments gets `none`. -/
theorem avg_grade_weighted_spec_witness :
    ModulBelegungRepository.avg_grade_weighted [demoDone1, demoDone2, demoOpen]
        [demoModul1, demoModul2] 7 = some (4 / 3 : Rat)
    ∧ ModulBelegungRepository.avg_grade_weighted [demoOpen]
        [demoModul1, demoModul2] 7 = none := by
  constructor
  · rw [avg_grade_weighted_spec _ _ _ (by decide) (by decide)]
    norm_num [demoDone1, demoDone2, demoOpen, demoModul1, demoModul2,
      ModulBelegungRepository.ectsOf]
    intro h
    exact absurd h (List.cons_ne_nil _ _)
  · exact (avg_grade_weighted_spec [demoOpen] [demoModul1, demoModul2] 7
      (by decide) (by decide)).trans (by rfl)

/-! ## Theorems about plot_latest_per_module (C1, C2) -/

/-- The fold computing SQL `MAX` dominates its start value and every list
element. -/
lemma le_foldl_max (l : List Nat) :
    ∀ a : Nat, a ≤ l.foldl Nat.max a ∧ ∀ x ∈ l, x ≤ l.foldl Nat.max a := by
  induction l with
  | nil =>
    intro a
    exact ⟨Nat.le_refl _, by intro x hx; exact absurd hx (List.not_mem_nil x)⟩
  | cons b t ih =>
    intro a
    refine ⟨Nat.le_trans (Nat.le_max_left a b) (ih (Nat.max a b)).1, ?_⟩
    intro x hx
    rcases List.mem_cons.mp hx with hxb | hxt
    · subst hxb
      exact Nat.le_trans (Nat.le_max_right a x) (ih (Nat.max a x)).1
    · exact (ih (Nat.max a b)).2 x hxt

/-- The fold computing SQL `MAX` returns its start value or a list
element. -/
lemma foldl_max_mem (l : List Nat) :
    ∀ a : Nat, l.foldl Nat.max a = a ∨ l.foldl Nat.max a ∈ l := by
  induction l with
  | nil => intro a; exact Or.inl rfl
  | cons b t ih =>
    intro a
    rcases ih (Nat.max a b) with h | h
    · rcases Nat.le_total a b with hab | hba
      · right
        have hm2 : Nat.max a b = b := Nat.max_eq_right hab
        rw [List.foldl_cons, h, hm2]
        exact List.mem_cons_self _ _
      · left
        have hm2 : Nat.max a b = a := Nat.max_eq_left hba
        rw [List.foldl_cons, h, hm2]
    · right
      rw [List.foldl_cons]
      exact List.mem_cons_of_mem _ h

/-- SQL `MAX` over a nonempty column is attained by one of its rows. -/
lemma foldl_max_mem_of_ne_nil {l : List Nat} (h : l ≠ []) :
    l.foldl Nat.max 0 ∈ l := by
  rcases foldl_max_mem l 0 with h0 | hm
  · cases l with
    | nil => exact absurd rfl h
    | cons b t =>
      have hb := (le_foldl_max (b :: t) 0).2 b (List.mem_cons_self b t)
      rw [h0] at hb
      rw [h0, ← Nat.le_zero.mp hb]
      exact List.mem_cons_self b t
  · exact hm

/-- For a module with at least one enrollment of the program, the group
maximum `MAX(belegung_id)` is attained by an enrollment row of the program
for that module, and dominates every such row. -/
lemma groupMax_attained (mbs : List ModulBelegungRow) (sgid mid : Nat)
    (hmem : ∃ mb ∈ mbs, mb.studiengang_id = sgid ∧ mb.modul_id = mid) :
    ∃ rmax ∈ mbs.filter (fun r => r.studiengang_id == sgid),
      rmax.modul_id = mid
      ∧ rmax.belegung_id
          = ModulBelegungRepository.groupMaxId
              (mbs.filter (fun r => r.studiengang_id == sgid)) mid
      ∧ ∀ mb ∈ mbs, mb.studiengang_id = sgid → mb.modul_id = mid →
          mb.belegung_id ≤ rmax.belegung_id := by
  obtain ⟨mb0, hmb0, hs0, hm0⟩ := hmem
  have hmb0f : mb0 ∈ (mbs.filter (fun r => r.studiengang_id == sgid)).filter
      (fun r => r.modul_id == mid) :=
    List.mem_filter.mpr
      ⟨List.mem_filter.mpr ⟨hmb0, beq_iff_eq.mpr hs0⟩, beq_iff_eq.mpr hm0⟩
  have hne : ((mbs.filter (fun r => r.studiengang_id == sgid)).filter
      (fun r => r.modul_id == mid)).map (fun r => r.belegung_id) ≠ [] := by
    intro hcon
    rw [List.map_eq_nil_iff] at hcon
    rw [hcon] at hmb0f
    exact List.not_mem_nil _ hmb0f
  have hmem2 := foldl_max_mem_of_ne_nil hne
  rw [List.mem_map] at hmem2
  obtain ⟨rmax, hrmaxg, hrmaxid⟩ := hmem2
  refine ⟨rmax, List.mem_of_mem_filter hrmaxg,
    beq_iff_eq.mp (List.mem_filter.mp hrmaxg).2, hrmaxid, ?_⟩
  intro mb hmb hs hm
  have hmbg : mb ∈ (mbs.filter (fun r => r.studiengang_id == sgid)).filter
      (fun r => r.modul_id == mid) :=
    List.mem_filter.mpr
      ⟨List.mem_filter.mpr ⟨hmb, beq_iff_eq.mpr hs⟩, beq_iff_eq.mpr hm⟩
  have hle := (le_foldl_max (((mbs.filter (fun r => r.studiengang_id == sgid)).filter
      (fun r => r.modul_id == mid)).map (fun r => r.belegung_id)) 0).2
    mb.belegung_id (List.mem_map_of_mem _ hmbg)
  rw [← hrmaxid] at hle
  exact hle

/-- The property C1 asserts of each result row: it is the projection of the
program's enrollment with the highest `belegung_id` for its module, joined
with that module's catalog entry. -/
def LatestRowOf (mbs : List ModulBelegungRow) (moduls : List ModulRow)
    (sgid : Nat) (row : ModulBelegungRepository.PlotRow) : Prop :=
  ∃ mb ∈ mbs, ∃ m ∈ moduls,
    mb.studiengang_id = sgid ∧ mb.modul_id = row.modul_id
    ∧ m.modul_id = row.modul_id
    ∧ row = ModulBelegungRepository.mkPlotRow mb m
    ∧ ∀ mb2 ∈ mbs, mb2.studiengang_id = sgid → mb2.modul_id = row.modul_id →
        mb2.belegung_id ≤ mb.belegung_id

/-- Joining one kept `MAX(belegung_id)` back to the detail table and the
catalog produces exactly one row: the projection of the maximal enrollment
with its module. -/
lemma plot_rowsFor (mbs : List ModulBelegungRow) (moduls : List ModulRow)
    (sgid mid : Nat)
    (hpk : (mbs.map (fun r => r.belegung_id)).Nodup)
    (hmk : (moduls.map (fun m => m.modul_id)).Nodup)
    (hfk : ∀ mb ∈ mbs, ∃ m ∈ moduls, m.modul_id = mb.modul_id)
    (hmem : ∃ mb ∈ mbs, mb.studiengang_id = sgid ∧ mb.modul_id = mid) :
    ∃ rmax m, rmax ∈ mbs ∧ rmax.studiengang_id = sgid ∧ rmax.modul_id = mid
      ∧ m ∈ moduls ∧ m.modul_id = mid
      ∧ (∀ mb ∈ mbs, mb.studiengang_id = sgid → mb.modul_id = mid →
          mb.belegung_id ≤ rmax.belegung_id)
      ∧ ((mbs.filter (fun r => r.belegung_id
            == ModulBelegungRepository.groupMaxId
                 (mbs.filter (fun r => r.studiengang_id == sgid)) mid)).flatMap
          (fun mb => (moduls.filter (fun m => m.modul_id == mb.modul_id)).map
            (fun m => ModulBelegungRepository.mkPlotRow mb m)))
        = [ModulBelegungRepository.mkPlotRow rmax m] := by
  obtain ⟨rmax, hrmaxfil, hrmaxmid, hrmaxid, hmax⟩ :=
    groupMax_attained mbs sgid mid hmem
  obtain ⟨hrmaxmbs, hrmaxsgid⟩ := List.mem_filter.mp hrmaxfil
  obtain ⟨m, hmmem, hmid⟩ := hfk rmax hrmaxmbs
  refine ⟨rmax, m, hrmaxmbs, beq_iff_eq.mp hrmaxsgid, hrmaxmid, hmmem,
    by rw [hmid, hrmaxmid], hmax, ?_⟩
  have hfilter1 : mbs.filter (fun r => r.belegung_id
      == ModulBelegungRepository.groupMaxId
           (mbs.filter (fun r => r.studiengang_id == sgid)) mid) = [rmax] :=
    filter_key_eq (fun r => r.belegung_id) mbs rmax _ hpk hrmaxmbs hrmaxid
  rw [hfilter1, List.flatMap_cons, List.flatMap_nil, List.append_nil,
      filter_key_eq (fun mm => mm.modul_id) moduls m rmax.modul_id hmk hmmem hmid]
  rfl

/-- Pointwise description of the joined (pre-sort) result: its module-id
column is exactly the grouped module-id list, and each row is the maximal
enrollment of its module joined with the catalog. -/
lemma plot_joined_spec (mbs : List ModulBelegungRow) (moduls : List ModulRow)
    (sgid : Nat)
    (hpk : (mbs.map (fun r => r.belegung_id)).Nodup)
    (hmk : (moduls.map (fun m => m.modul_id)).Nodup)
    (hfk : ∀ mb ∈ mbs, ∃ m ∈ moduls, m.modul_id = mb.modul_id) :
    ∀ ms : List Nat,
      (∀ mid ∈ ms, ∃ mb ∈ mbs, mb.studiengang_id = sgid ∧ mb.modul_id = mid) →
      ((ms.map (fun mid => (ModulBelegungRepository.groupMaxId
            (mbs.filter (fun r => r.studiengang_id == sgid)) mid, mid))).flatMap
          (fun p => (mbs.filter (fun r => r.belegung_id == p.1)).flatMap
            (fun mb => (moduls.filter (fun m => m.modul_id == mb.modul_id)).map
              (fun m => ModulBelegungRepository.mkPlotRow mb m)))).map
          (fun row => row.modul_id) = ms
      ∧ ∀ row ∈ (ms.map (fun mid => (ModulBelegungRepository.groupMaxId
            (mbs.filter (fun r => r.studiengang_id == sgid)) mid, mid))).flatMap
          (fun p => (mbs.filter (fun r => r.belegung_id == p.1)).flatMap
            (fun mb => (moduls.filter (fun m => m.modul_id == mb.modul_id)).map
              (fun m => ModulBelegungRepository.mkPlotRow mb m))),
          LatestRowOf mbs moduls sgid row := by
  intro ms
  induction ms with
  | nil =>
    intro _
    exact ⟨rfl, by intro row hrow; exact absurd hrow (List.not_mem_nil row)⟩
  | cons mid tail ih =>
    intro hall
    obtain ⟨rmax, m, hrmbs, hrsgid, hrmid, hmmem, hmmid, hmax, heq⟩ :=
      plot_rowsFor mbs moduls sgid mid hpk hmk hfk
        (hall mid (List.mem_cons_self mid tail))
    obtain ⟨ihmap, ihrows⟩ := ih (fun x hx => hall x (List.mem_cons_of_mem mid hx))
    rw [List.map_cons, List.flatMap_cons]
    constructor
    · rw [List.map_append, heq, ihmap]
      have : (ModulBelegungRepository.mkPlotRow rmax m).modul_id = mid := hrmid
      rw [List.map_cons]
      rw [this]
      rfl
    · intro row hrow
      rcases List.mem_append.mp hrow with hhead | htail
      · rw [heq] at hhead
        have hroweq : row = ModulBelegungRepository.mkPlotRow rmax m := by
          simpa using hhead
        subst hroweq
        refine ⟨rmax, hrmbs, m, hmmem, hrsgid, rfl, hmmid.trans hrmid.symm, rfl, ?_⟩
        intro mb2 hmb2 hs2 hm2
        exact hmax mb2 hmb2 hs2 (hm2.trans hrmid)
      · exact ihrows row htail

instance : IsTotal ModulBelegungRepository.PlotRow
    (fun a b => a.modul_id ≤ b.modul_id) :=
  ⟨fun a b => Nat.le_total a.modul_id b.modul_id⟩

instance : IsTrans ModulBelegungRepository.PlotRow
    (fun a b => a.modul_id ≤ b.modul_id) :=
  ⟨fun _ _ _ h h2 => Nat.le_trans h h2⟩

/-- The full contract C1 states for `plot_latest_per_module`: one row per
module with at least one enrollment of the program (no more, no less), each
row being the maximal enrollment joined with the catalog, in ascending
module-id order. -/
def PlotLatestSpec (mbs : List ModulBelegungRow) (moduls : List ModulRow)
    (sgid : Nat) : Prop :=
  ((ModulBelegungRepository.plot_latest_per_module mbs moduls sgid).map
      (fun r => r.modul_id)).Nodup
  ∧ (∀ mid : Nat,
      mid ∈ (ModulBelegungRepository.plot_latest_per_module mbs moduls sgid).map
          (fun r => r.modul_id)
        ↔ ∃ mb ∈ mbs, mb.studiengang_id = sgid ∧ mb.modul_id = mid)
  ∧ List.Sorted (fun a b => a ≤ b)
      ((ModulBelegungRepository.plot_latest_per_module mbs moduls sgid).map
        (fun r => r.modul_id))
  ∧ ∀ row ∈ ModulBelegungRepository.plot_latest_per_module mbs moduls sgid,
      LatestRowOf mbs moduls sgid row

/-- C1: under primary-key uniqueness of `belegung_id`, uniqueness of catalog
module ids, and foreign-key integrity of enrollments, the query returns
exactly one row per module that has an enrollment for the program — the
enrollment with the highest `belegung_id`, joined with the module's title
and credit weight — ordered ascending by module id. -/
theorem plot_latest_per_module_spec (mbs : List ModulBelegungRow)
    (moduls : List ModulRow) (sgid : Nat)
    (hpk : (mbs.map (fun r => r.belegung_id)).Nodup)
    (hmk : (moduls.map (fun m => m.modul_id)).Nodup)
    (hfk : ∀ mb ∈ mbs, ∃ m ∈ moduls, m.modul_id = mb.modul_id) :
    PlotLatestSpec mbs moduls sgid := by
  have hmids : ∀ mid ∈ ((mbs.filter (fun r => r.studiengang_id == sgid)).map
      (fun r => r.modul_id)).dedup,
      ∃ mb ∈ mbs, mb.studiengang_id = sgid ∧ mb.modul_id = mid := by
    intro mid hmid
    rw [List.mem_dedup, List.mem_map] at hmid
    obtain ⟨r, hrf, hrid⟩ := hmid
    obtain ⟨hrm, hrs⟩ := List.mem_filter.mp hrf
    exact ⟨r, hrm, beq_iff_eq.mp hrs, hrid⟩
  obtain ⟨hmap, hrows⟩ := plot_joined_spec mbs moduls sgid hpk hmk hfk _ hmids
  have hperm : (ModulBelegungRepository.plot_latest_per_module mbs moduls sgid).Perm
      ((((mbs.filter (fun r => r.studiengang_id == sgid)).map
          (fun r => r.modul_id)).dedup.map
            (fun mid => (ModulBelegungRepository.groupMaxId
              (mbs.filter (fun r => r.studiengang_id == sgid)) mid, mid))).flatMap
        (fun p => (mbs.filter (fun r => r.belegung_id == p.1)).flatMap
          (fun mb => (moduls.filter (fun m => m.modul_id == mb.modul_id)).map
            (fun m => ModulBelegungRepository.mkPlotRow mb m)))) :=
    List.perm_insertionSort _ _
  have hpermmap := hperm.map (fun r : ModulBelegungRepository.PlotRow => r.modul_id)
  rw [hmap] at hpermmap
  refine ⟨?_, ?_, ?_, ?_⟩
  · exact hpermmap.nodup_iff.mpr (List.nodup_dedup _)
  · intro mid
    rw [hpermmap.mem_iff]
    constructor
    · exact hmids mid
    · rintro ⟨mb, hmb, hs, hm⟩
      rw [List.mem_dedup, List.mem_map]
      exact ⟨mb, List.mem_filter.mpr ⟨hmb, beq_iff_eq.mpr hs⟩, hm⟩
  · have hsorted : List.Sorted
        (fun a b : ModulBelegungRepository.PlotRow => a.modul_id ≤ b.modul_id)
        (ModulBelegungRepository.plot_latest_per_module mbs moduls sgid) :=
      List.sorted_insertionSort _ _
    exact List.Pairwise.map _ (fun _ _ h => h) hsorted
  · intro row hrow
    exact hrows row (hperm.mem_iff.mp hrow)

/-- Two attempts at the same module for the C1 witness: the earlier one
with actual grade 2.0, the later (resit) with 1.3. -/
def demoAttempt1 : ModulBelegungRow :=
  ⟨1, 7, 1, 1, none, none, none, none, some 2, 1⟩

def demoAttempt2 : ModulBelegungRow :=
  ⟨2, 7, 1, 1, none, none, none, none, some (13 / 10 : Rat), 2⟩

/-- Witness for C1: with two enrollments of module 1 (grade 2.0 under id 1,
grade 1.3 under id 2), the integrity hypotheses hold, the spec follows, and
the single result row carries only the later grade 1.3. -/
theorem plot_latest_per_module_spec_witness :
    (([demoAttempt1, demoAttempt2].map (fun r => r.belegung_id)).Nodup
      ∧ (([demoModul1] : List ModulRow).map (fun m => m.modul_id)).Nodup
      ∧ ∀ mb ∈ [demoAttempt1, demoAttempt2], ∃ m ∈ [demoModul1],
          m.modul_id = mb.modul_id)
    ∧ PlotLatestSpec [demoAttempt1, demoAttempt2] [demoModul1] 7
    ∧ (ModulBelegungRepository.plot_latest_per_module [demoAttempt1, demoAttempt2]
        [demoModul1] 7).map (fun r => r.ist_note) = [some (13 / 10 : Rat)] :=
  ⟨⟨by decide, by decide, by decide⟩,
   plot_latest_per_module_spec [demoAttempt1, demoAttempt2] [demoModul1] 7
     (by decide) (by decide) (by decide),
   by rfl⟩

/-- Every result row of the query is the projection of some detail row
joined with some catalog row (with `delta_days` computed from its own date
columns). -/
lemma mem_plot_mkPlotRow {mbs : List ModulBelegungRow} {moduls : List ModulRow}
    {sgid : Nat} {row : ModulBelegungRepository.PlotRow}
    (h : row ∈ ModulBelegungRepository.plot_latest_per_module mbs moduls sgid) :
    ∃ mb m, row = ModulBelegungRepository.mkPlotRow mb m := by
  have h2 : row ∈ (ModulBelegungRepository.latestCTE mbs sgid).flatMap
      (fun p => (mbs.filter (fun r => r.belegung_id == p.1)).flatMap
        (fun mb => (moduls.filter (fun m => m.modul_id == mb.modul_id)).map
          (fun m => ModulBelegungRepository.mkPlotRow mb m))) :=
    (List.perm_insertionSort _ _).mem_iff.mp h
  rw [List.mem_flatMap] at h2
  obtain ⟨p, hp, hrow⟩ := h2
  rw [List.mem_flatMap] at hrow
  obtain ⟨mb, hmb, hrow2⟩ := hrow
  rw [List.mem_map] at hrow2
  obtain ⟨m, hm, hrow3⟩ := hrow2
  exact ⟨mb, m, hrow3.symm⟩

/-- C2: in every row of `plot_latest_per_module`, `delta_days` is NULL
exactly when the target or actual completion date is missing, and otherwise
is the signed count of whole days from target to actual (actual minus
target); e.g. target 2024-01-10 with actual 2024-01-15 gives 5, and the
reversed pair gives -5. -/
theorem plot_delta_days_spec :
    (∀ (mbs : List ModulBelegungRow) (moduls : List ModulRow) (sgid : Nat),
      ∀ row ∈ ModulBelegungRepository.plot_latest_per_module mbs moduls sgid,
        (row.delta_days = none
          ↔ (row.soll_bestanden_am = none ∨ row.ist_bestanden_am = none))
        ∧ (∀ s i : Date, row.soll_bestanden_am = some s →
            row.ist_bestanden_am = some i →
            row.delta_days = some ((toOrdinal i : Int) - (toOrdinal s : Int))))
  ∧ ModulBelegungRepository.deltaDays (some ⟨2024, 1, 10⟩) (some ⟨2024, 1, 15⟩)
      = some 5
  ∧ ModulBelegungRepository.deltaDays (some ⟨2024, 1, 15⟩) (some ⟨2024, 1, 10⟩)
      = some (-5) := by
  refine ⟨?_, by decide, by decide⟩
  intro mbs moduls sgid row hrow
  obtain ⟨mb, m, hroweq⟩ := mem_plot_mkPlotRow hrow
  subst hroweq
  constructor
  · show ModulBelegungRepository.deltaDays mb.soll_bestanden_am mb.ist_bestanden_am
        = none
      ↔ (mb.soll_bestanden_am = none ∨ mb.ist_bestanden_am = none)
    rcases mb.soll_bestanden_am with _ | s <;> rcases mb.ist_bestanden_am with _ | i <;>
      simp [ModulBelegungRepository.deltaDays]
  · intro s i hsome hisome
    have hs : mb.soll_bestanden_am = some s := hsome
    have hi : mb.ist_bestanden_am = some i := hisome
    show ModulBelegungRepository.deltaDays mb.soll_bestanden_am mb.ist_bestanden_am
        = some ((toOrdinal i : Int) - (toOrdinal s : Int))
    rw [hs, hi]
    rfl

/-- Enrollment with both completion dates set, for the C2 witness. -/
def demoDated : ModulBelegungRow :=
  ⟨1, 7, 1, 1, none, some ⟨2024, 1, 10⟩, some ⟨2024, 1, 15⟩, none, none, 1⟩

/-- Witness for C2: five days late against the 2024-01-10 target. -/
theorem plot_delta_days_spec_witness :
    (ModulBelegungRepository.mkPlotRow demoDated demoModul1).delta_days = some 5 := by
  have h := (plot_delta_days_spec.1 [demoDated] [demoModul1] 7
      (ModulBelegungRepository.mkPlotRow demoDated demoModul1) (by decide)).2
      ⟨2024, 1, 10⟩ ⟨2024, 1, 15⟩ rfl rfl
  exact h.trans (by decide)
